import Mathlib

set_option maxHeartbeats 1000000

/-!
Verification development for a CIP-68 token service (Cardano LMS contract
backend).  The embedding translates the adapter (`MeshAdapter`), the
transaction builder (`MeshTxBuilder.mint` / `update` / `burn`) and the
`batchMint` request-validation of the contract controller into pure Lean
functions.  The external SDK's fluent transaction-builder DSL is modelled as
an accumulated list of `Action`s; chain access (Blockfrost fetcher) is
modelled as a list of UTxOs filtered the way the provider filters
(`fetchAddressUTxOs(address, unit)`); CBOR datum encode/decode is modelled at
the level of the decoded key-value map (encoding being injective, the
composite decode-of-encode is the identity on maps).
-/

deriving instance DecidableEq for Except

namespace LMS

/-- Lowercase hex digit for a nibble, as produced by the SDK hex helpers. -/
def hexDigit (n : Nat) : Char :=
  Char.ofNat (if n < 10 then 48 + n else 87 + n)

/-- Two lowercase hex digits for one byte value. -/
def byteToHex (n : Nat) : String :=
  String.mk [hexDigit (n / 16), hexDigit (n % 16)]

/-- UTF-8 byte sequence of one character. -/
def utf8Bytes (c : Char) : List Nat :=
  let n := c.toNat
  if n < 128 then [n]
  else if n < 2048 then [192 + n / 64, 128 + n % 64]
  else if n < 65536 then [224 + n / 4096, 128 + (n / 64) % 64, 128 + n % 64]
  else [240 + n / 262144, 128 + (n / 4096) % 64, 128 + (n / 64) % 64, 128 + n % 64]

/-- Hex string of a byte list. -/
def bytesToHex : List Nat → String
  | [] => ""
  | b :: bs => byteToHex b ++ bytesToHex bs

/-- UTF-8 bytes of a character list. -/
def charsUtf8 : List Char → List Nat
  | [] => []
  | c :: cs => utf8Bytes c ++ charsUtf8 cs

/-- Model of the SDK `stringToHex`: UTF-8 encoding of the string in lowercase hex. -/
def stringToHex (s : String) : String :=
  bytesToHex (charsUtf8 s.data)

/-- CIP-68 reference-token (label 100) asset name: label prefix ++ hex name. -/
def CIP68_100 (hexName : String) : String := "000643b0" ++ hexName

/-- CIP-68 user-token (label 222) asset name: label prefix ++ hex name. -/
def CIP68_222 (hexName : String) : String := "000de140" ++ hexName

/-- A decoded inline datum: the ordered key-value map carried by the CIP-68
reference token (`convertDatum` decodes the on-chain CBOR to exactly this). -/
abbrev Datum := List (String × String)

/-- Model of `MeshAdapter.getPkHash`: the value of the first `_pk` entry of the
decoded datum map (in raw hex), or `none` when the field is missing. -/
def getPkHash (d : Datum) : Option String :=
  match d.find? (fun kv => kv.1 == "_pk") with
  | some kv => some kv.2
  | none => none

/-- Model of `MeshAdapter.convertDatum`: the decoded key-value map, dropping
the `_pk` entry unless `contain_pk` is set. -/
def convertDatum (d : Datum) (contain_pk : Bool) : Datum :=
  if contain_pk then d else d.filter (fun kv => kv.1 != "_pk")

/-- Model of the SDK `metadataToCip68`: builds the inline datum carrying
exactly the supplied metadata map (no field is added or merged); since the
datum is modelled as its decoded map, the encoder is the identity on maps. -/
def metadataToCip68 (metadata : List (String × String)) : Datum := metadata

/-- A transaction input reference. -/
structure TxIn where
  txHash : String
  outputIndex : Nat
deriving DecidableEq

/-- A transaction output: address, value (unit ↦ quantity) and optional inline
datum (`plutusData`). -/
structure TxOut where
  address : String
  amount : List (String × Int)
  plutusData : Option Datum
deriving DecidableEq

/-- An unspent transaction output as returned by the provider. -/
structure UTxO where
  input : TxIn
  output : TxOut
deriving DecidableEq

/-- Does the UTxO's value contain the given asset unit? -/
def hasUnit (u : UTxO) (unit : String) : Bool :=
  u.output.amount.any (fun a => a.1 == unit)

/-- Model of `fetcher.fetchAddressUTxOs(address, unit?)`: the chain's UTxOs at
the address, restricted to those holding the asset unit when one is given. -/
def fetchAddressUTxOs (chain : List UTxO) (address : String) (unit : Option String) : List UTxO :=
  chain.filter (fun u =>
    u.output.address == address &&
      match unit with
      | some un => hasUnit u un
      | none => true)

/-- Model of `MeshAdapter.getAddressUTXOAsset`: the last (most recent) fetched
UTxO holding the unit, `none` when there is none (`utxos[utxos.length - 1]`). -/
def getAddressUTXOAsset (chain : List UTxO) (address unit : String) : Option UTxO :=
  (fetchAddressUTxOs chain address (some unit)).getLast?

/-- Model of `MeshAdapter.getAddressUTXOAssets`: all fetched UTxOs holding the unit. -/
def getAddressUTXOAssets (chain : List UTxO) (address unit : String) : List UTxO :=
  fetchAddressUTxOs chain address (some unit)

/-- Model of `MeshAdapter.getUtxoForTx`: first UTxO at the address whose input
transaction hash matches, error when absent. -/
def getUtxoForTx (chain : List UTxO) (address txHash : String) : Except String UTxO :=
  match (fetchAddressUTxOs chain address none).find? (fun u => u.input.txHash == txHash) with
  | some u => .ok u
  | none => .error "No UTXOs found in getUtxoForTx method."

/-- The environment a builder call runs against: the provider's view of the
chain, the wallet's UTxOs/collateral/change address (with the public-key hash
`deserializeAddress(walletAddress).pubKeyHash`), and the script identifiers
the adapter constructor derived. -/
structure Env where
  chain : List UTxO
  walletUtxos : List UTxO
  collaterals : List UTxO
  walletAddress : String
  walletPkh : String
  policyId : String
  storeAddress : String
  mintScriptCbor : String
  storeScriptCbor : String
deriving DecidableEq

/-- Model of `MeshAdapter.getWalletForTx`: wallet UTxOs, first collateral and
change address, with the three emptiness checks of the source in order. -/
def getWalletForTx (env : Env) : Except String (List UTxO × UTxO × String) :=
  if env.walletUtxos.isEmpty then .error "No UTXOs found in getWalletForTx method."
  else
    match env.collaterals with
    | [] => .error "No collateral found in getWalletForTx method."
    | c :: _ =>
      if env.walletAddress == "" then .error "No wallet address found in getWalletForTx method."
      else .ok (env.walletUtxos, c, env.walletAddress)

/-- One instruction accumulated on the fluent transaction builder.  A
`mintAct`/`spendAct` bundles the `.mint`/`.txIn` call with its script and
redeemer (`redeemer` is the constructor index: 0 for `mConStr0`, 1 for
`mConStr1`); `txOutAct` carries the optional inline datum attached by
`.txOutInlineDatumValue`. -/
inductive Action where
  | txIn (txHash : String) (outputIndex : Nat)
  | mintAct (quantity : Int) (policyId : String) (assetNameLabeled : String) (script : String) (redeemer : Nat)
  | spendAct (txHash : String) (outputIndex : Nat) (redeemer : Nat) (script : String)
  | txOutAct (address : String) (amount : List (String × Int)) (datum : Option Datum)
  | requiredSignerHash (pkh : String)
  | changeAddress (addr : String)
  | selectUtxosFrom (utxos : List UTxO)
  | txInCollateral (txHash : String) (outputIndex : Nat)
  | setNetwork
deriving DecidableEq

/-- One entry of `MeshTxBuilder.mint`'s parameter list. -/
structure MintParam where
  assetName : String
  metadata : List (String × String)
  quantity : Int
  receiver : String
deriving DecidableEq

/-- One entry of `MeshTxBuilder.update`'s parameter list. -/
structure UpdateParam where
  assetName : String
  metadata : List (String × String)
  txHash : Option String
deriving DecidableEq

/-- One entry of `MeshTxBuilder.burn`'s parameter list. -/
structure BurnParam where
  assetName : String
  quantity : Int
  txHash : Option String
deriving DecidableEq

/-- Unit of the reference token of an asset: `policyId + CIP68_100(stringToHex(assetName))`. -/
def unit100 (env : Env) (assetName : String) : String :=
  env.policyId ++ CIP68_100 (stringToHex assetName)

/-- Unit of the user token of an asset: `policyId + CIP68_222(stringToHex(assetName))`. -/
def unit222 (env : Env) (assetName : String) : String :=
  env.policyId ++ CIP68_222 (stringToHex assetName)

/-- The reference-token UTxO of an asset at the store address, if any. -/
def lookupRef (env : Env) (assetName : String) : Option UTxO :=
  getAddressUTXOAsset env.chain env.storeAddress (unit100 env assetName)

/-- The `hasPlutusData` flag mint computes per asset: `!!utxo?.output?.plutusData`. -/
def hasPlutusData (env : Env) (assetName : String) : Bool :=
  match lookupRef env assetName with
  | some u => u.output.plutusData.isSome
  | none => false

/-- The `_pk` stored in the existing reference token's datum, as
`getPkHash(existUtXOwithUnit?.output?.plutusData)` reads it. -/
def storedPk (env : Env) (assetName : String) : Option String :=
  match lookupRef env assetName with
  | some u =>
    match u.output.plutusData with
    | some d => getPkHash d
    | none => none
  | none => none

/-- Store-UTxO location shared by `update` and `burn`: by explicit transaction
hash when given (`getUtxoForTx`, which raises its own error), else by asset
lookup at the store address with the `'Store UTXO not found'` error. -/
def lookupStore (env : Env) (assetName : String) (txHash : Option String) : Except String UTxO :=
  match txHash with
  | some h => getUtxoForTx env.chain env.storeAddress h
  | none =>
    match getAddressUTXOAsset env.chain env.storeAddress (unit100 env assetName) with
    | some u => .ok u
    | none => .error "Store UTXO not found"

/-- The receiver map `txOutReceiverMap`: a JS `Map` from receiver address to
the user-token assets accumulated for it, insertion-ordered with unique keys. -/
abbrev RMap := List (String × List (String × Int))

/-- JS `Map` update as mint performs it: append the asset to the existing
entry of the key, else add a new entry at the end. -/
def rmapPush : RMap → String → String × Int → RMap
  | [], k, v => [(k, [v])]
  | (k0, vs) :: rest, k, v =>
    if k0 == k then (k0, vs ++ [v]) :: rest
    else (k0, vs) :: rmapPush rest k v

/-- JS `Map.get` with a missing key read as the empty asset list. -/
def rmapLookup : RMap → String → List (String × Int)
  | [], _ => []
  | (k0, vs) :: rest, k => if k0 == k then vs else rmapLookup rest k

/-- The receiver key of a mint parameter: `receiver ? receiver : walletAddress`. -/
def receiverKey (walletAddress : String) (p : MintParam) : String :=
  if p.receiver == "" then walletAddress else p.receiver

/-- One receiver-map update of the mint loop (identical in both branches). -/
def mintStep (env : Env) (walletAddress : String) (m : RMap) (p : MintParam) : RMap :=
  rmapPush m (receiverKey walletAddress p) (unit222 env p.assetName, p.quantity)

/-- The finalization chain of `mint`: change address, required signer,
wallet-funded inputs, collateral, network tag. -/
def finalizeMint (env : Env) (walletAddress : String) (collateral : UTxO) (utxos : List UTxO) : List Action :=
  [Action.changeAddress walletAddress,
   Action.requiredSignerHash env.walletPkh,
   Action.selectUtxosFrom utxos,
   Action.txInCollateral collateral.input.txHash collateral.input.outputIndex,
   Action.setNetwork]

/-- The finalization chain of `update` and `burn` (required signer first). -/
def finalizeSpend (env : Env) (walletAddress : String) (collateral : UTxO) (utxos : List UTxO) : List Action :=
  [Action.requiredSignerHash env.walletPkh,
   Action.changeAddress walletAddress,
   Action.selectUtxosFrom utxos,
   Action.txInCollateral collateral.input.txHash collateral.input.outputIndex,
   Action.setNetwork]

/-- `assetsWithUtxo.every((asset) => asset.hasPlutusData)`. -/
def allExistB (env : Env) (params : List MintParam) : Bool :=
  params.all (fun p => hasPlutusData env p.assetName)

/-- `assetsWithUtxo.every((asset) => !asset.hasPlutusData)`. -/
def allNewB (env : Env) (params : List MintParam) : Bool :=
  params.all (fun p => !hasPlutusData env p.assetName)

/-- The per-asset processing loop of `mint`.  In the `allExist` branch the
ownership check (`pk !== deserializeAddress(walletAddress).pubKeyHash`) throws
before any action for the asset is appended; otherwise (`allNew`) the user
token, the quantity-1 reference token and the store output with the inline
datum are appended.  The receiver map is threaded through. -/
def mintLoop (env : Env) (walletAddress walletPkh : String) (allExist : Bool) :
    List MintParam → RMap → Except String (RMap × List Action)
  | [], m => .ok (m, [])
  | p :: ps, m =>
    if allExist then
      if storedPk env p.assetName ≠ some walletPkh then
        .error (p.assetName ++ " has been exist")
      else
        match mintLoop env walletAddress walletPkh allExist ps (mintStep env walletAddress m p) with
        | .error e => .error e
        | .ok (m2, rest) =>
          .ok (m2,
            Action.mintAct p.quantity env.policyId (CIP68_222 (stringToHex p.assetName)) env.mintScriptCbor 0
              :: rest)
    else
      match mintLoop env walletAddress walletPkh allExist ps (mintStep env walletAddress m p) with
      | .error e => .error e
      | .ok (m2, rest) =>
        .ok (m2,
          Action.mintAct p.quantity env.policyId (CIP68_222 (stringToHex p.assetName)) env.mintScriptCbor 0
            :: Action.mintAct 1 env.policyId (CIP68_100 (stringToHex p.assetName)) env.mintScriptCbor 0
            :: Action.txOutAct env.storeAddress [(unit100 env p.assetName, 1)] (some (metadataToCip68 p.metadata))
            :: rest)

/-- Model of `MeshTxBuilder.mint`: wallet fetch, optional explicit inputs, the
uniformly-new/uniformly-existing check with its error naming the existing
assets, the per-asset loop, then one output per receiver-map entry and the
finalization chain.  An error anywhere rejects the whole call, so no
transaction is built. -/
def mint (env : Env) (params : List MintParam) (utxosInput : List UTxO) : Except String (List Action) :=
  match getWalletForTx env with
  | .error e => .error e
  | .ok (utxos, collateral, walletAddress) =>
    if !allExistB env params && !allNewB env params then
      .error ("Transaction only supports either minting new or existing assets.\nAssets already exist: "
        ++ String.intercalate ", " ((params.filter (fun p => hasPlutusData env p.assetName)).map (fun p => p.assetName)))
    else
      match mintLoop env walletAddress env.walletPkh (allExistB env params) params [] with
      | .error e => .error e
      | .ok (m, acts) =>
        .ok (utxosInput.map (fun u => Action.txIn u.input.txHash u.input.outputIndex)
          ++ acts ++ m.map (fun e => Action.txOutAct e.1 e.2 none)
          ++ finalizeMint env walletAddress collateral utxos)

/-- The receiver map mint ends up with: the pure fold of the per-asset updates. -/
def mintReceiverMap (env : Env) (params : List MintParam) : RMap :=
  params.foldl (mintStep env env.walletAddress) []

/-- Sequence per-asset builders, concatenating their actions; the first error
rejects the whole call (`Promise.all` semantics on the observable result). -/
def exceptFlatMapM {α : Type} (f : α → Except String (List Action)) : List α → Except String (List Action)
  | [] => .ok []
  | x :: xs =>
    match f x with
    | .error e => .error e
    | .ok a =>
      match exceptFlatMapM f xs with
      | .error e => .error e
      | .ok rest => .ok (a ++ rest)

/-- Per-asset actions of `update`: spend the located store UTxO with the store
script under redeemer constructor 0, and re-create the quantity-1 reference
token at the store address with the wholly new inline datum. -/
def updateAsset (env : Env) (p : UpdateParam) : Except String (List Action) :=
  match lookupStore env p.assetName p.txHash with
  | .error e => .error e
  | .ok storeUtxo =>
    .ok [Action.spendAct storeUtxo.input.txHash storeUtxo.input.outputIndex 0 env.storeScriptCbor,
         Action.txOutAct env.storeAddress [(unit100 env p.assetName, 1)] (some (metadataToCip68 p.metadata))]

/-- Model of `MeshTxBuilder.update`. -/
def update (env : Env) (params : List UpdateParam) : Except String (List Action) :=
  match getWalletForTx env with
  | .error e => .error e
  | .ok (utxos, collateral, walletAddress) =>
    match exceptFlatMapM (updateAsset env) params with
    | .error e => .error e
    | .ok acts => .ok (acts ++ finalizeSpend env walletAddress collateral utxos)

/-- The caller's total held user-token quantity for the asset: the double
reduce over the wallet-address UTxOs holding the user-token unit. -/
def heldAmount (env : Env) (walletAddress assetName : String) : Int :=
  (getAddressUTXOAssets env.chain walletAddress (unit222 env assetName)).foldl
    (fun amount u =>
      amount + u.output.amount.foldl
        (fun amt a => if a.1 == unit222 env assetName then amt + a.2 else amt) 0)
    0

/-- Per-asset actions of `burn`: compute the held amount, locate the store
UTxO (error when absent), then either the full-burn action triple (negative
user-token mint, -1 reference-token mint, store spend, all under redeemer
constructor 1) when `-quantity === amount`, or the partial pair (negative
user-token mint under constructor 1 plus the wallet output carrying
`amount + quantity`). -/
def burnAsset (env : Env) (walletAddress : String) (p : BurnParam) : Except String (List Action) :=
  let amount := heldAmount env walletAddress p.assetName
  match lookupStore env p.assetName p.txHash with
  | .error e => .error e
  | .ok storeUtxo =>
    if -p.quantity = amount then
      .ok [Action.mintAct p.quantity env.policyId (CIP68_222 (stringToHex p.assetName)) env.mintScriptCbor 1,
           Action.mintAct (-1) env.policyId (CIP68_100 (stringToHex p.assetName)) env.mintScriptCbor 1,
           Action.spendAct storeUtxo.input.txHash storeUtxo.input.outputIndex 1 env.storeScriptCbor]
    else
      .ok [Action.mintAct p.quantity env.policyId (CIP68_222 (stringToHex p.assetName)) env.mintScriptCbor 1,
           Action.txOutAct walletAddress [(unit222 env p.assetName, amount + p.quantity)] none]

/-- Model of `MeshTxBuilder.burn`. -/
def burn (env : Env) (params : List BurnParam) : Except String (List Action) :=
  match getWalletForTx env with
  | .error e => .error e
  | .ok (utxos, collateral, walletAddress) =>
    match exceptFlatMapM (burnAsset env walletAddress) params with
    | .error e => .error e
    | .ok acts => .ok (acts ++ finalizeSpend env walletAddress collateral utxos)

/-- One item of a batch-mint request body.  `Option` models an absent field;
for JS truthiness an empty string is falsy as well. -/
structure BatchItem where
  asset_name : Option String
  metadata : Option (List (String × String))
  receiver : Option String
  quantity : Option Int
deriving DecidableEq

/-- JS falsiness of an optional string field (`!x`): absent or empty. -/
def strFalsy : Option String → Bool
  | none => true
  | some s => s == ""

/-- The per-item check of the `batchMint` handler:
`!item.asset_name || !item.metadata || !item.receiver` (an object field is
truthy whenever present). -/
def itemIncomplete (it : BatchItem) : Bool :=
  strFalsy it.asset_name || it.metadata.isNone || strFalsy it.receiver

/-- Outcome of the `batchMint` handler's validation prologue, which runs
before the provider, wallet, or builder is constructed: either an HTTP
rejection (status, error message) or the builder parameters it proceeds with. -/
inductive BatchMintResult where
  | reject (status : Nat) (msg : String)
  | proceed (params : List MintParam)
deriving DecidableEq

/-- Model of the validation prologue of `batchMint` (contract controller):
missing `course`/`items` or an empty array, the 15-item cap, then the
per-item field check in order; on success the parameters are assembled with
the `'1'` quantity default.  `batchMintValidateItems` is the part after the
array check; `batchMintValidate` adds the missing-`items` case. -/
def batchMintValidateItems (course : Option String) (its : List BatchItem) : BatchMintResult :=
  if strFalsy course || its.isEmpty then
    .reject 400 "Missing required fields: course, items (array)"
  else if 15 < its.length then
    .reject 400 "Maximum 15 items per batch (Cardano tx size limit)"
  else
    match its.find? itemIncomplete with
    | some _ => .reject 400 "Each item must have: asset_name, metadata, receiver"
    | none =>
      .proceed (its.map (fun it =>
        { assetName := it.asset_name.getD ""
          metadata := it.metadata.getD []
          quantity := it.quantity.getD 1
          receiver := it.receiver.getD "" }))

/-- The full validation prologue, covering a missing or non-array `items`. -/
def batchMintValidate (course : Option String) (items : Option (List BatchItem)) : BatchMintResult :=
  match items with
  | none => .reject 400 "Missing required fields: course, items (array)"
  | some its => batchMintValidateItems course its

/-- One validator entry of the compiled-contract descriptor (plutus.json). -/
structure Validator where
  title : String
  compiledCode : String
deriving DecidableEq

/-- Model of `MeshAdapter.readValidator`: compiled code of the validator with
the given title, error when absent. -/
def readValidator (validators : List Validator) (title : String) : Except String String :=
  match validators.find? (fun v => v.title == title) with
  | some v => .ok v.compiledCode
  | none => .error (title ++ " validator not found.")

/-- The address components `deserializeAddress` yields. -/
structure AddrParts where
  pubKeyHash : String
  stakeCredentialHash : String
  scriptHash : String
deriving DecidableEq

/-- The pure SDK primitives the adapter constructor composes (each is a
deterministic function of its arguments; the network id is fixed by the
environment constant and folded into the address builders). -/
structure SDK where
  applyParamsToScript : String → List String → String
  deserializeAddress : String → AddrParts
  plutusScriptAddress : String → String
  scriptAddressOf : String → String → String
  resolveScriptHash : String → String

/-- The identifiers the adapter constructor caches on the instance. -/
structure AdapterIds where
  storeScriptCbor : String
  storeAddress : String
  mintScriptCbor : String
  policyId : String
deriving DecidableEq

/-- Model of the `MeshAdapter` constructor: read the store validator, apply
`[course, issuer pubKeyHash, issuer stakeCredentialHash]`, derive the store
address from the parameterized script's hash and the issuer's stake hash;
read the mint validator, apply the five parameters, and resolve the policy
id.  The wallet and the provider's chain view are taken as arguments (the
constructor receives them) but the derivation never consults them. -/
def adapterInit (sdk : SDK) (validators : List Validator) (storeTitle mintTitle : String)
    (wallet : Option String) (chain : List UTxO) (course issuer : String) :
    Except String AdapterIds :=
  match readValidator validators storeTitle with
  | .error e => .error e
  | .ok storeCompileCode =>
    let ia := sdk.deserializeAddress issuer
    let storeScriptCbor := sdk.applyParamsToScript storeCompileCode
      [course, ia.pubKeyHash, ia.stakeCredentialHash]
    let storeAddr := sdk.scriptAddressOf
      (sdk.deserializeAddress (sdk.plutusScriptAddress storeScriptCbor)).scriptHash
      ia.stakeCredentialHash
    match readValidator validators mintTitle with
    | .error e => .error e
    | .ok mintCompileCode =>
      let sa := sdk.deserializeAddress storeAddr
      let mintScriptCbor := sdk.applyParamsToScript mintCompileCode
        [course, ia.pubKeyHash, ia.stakeCredentialHash, sa.scriptHash, sa.stakeCredentialHash]
      .ok { storeScriptCbor := storeScriptCbor
            storeAddress := storeAddr
            mintScriptCbor := mintScriptCbor
            policyId := sdk.resolveScriptHash mintScriptCbor }

/-! Concrete fixtures used by the witness and counterexample theorems. -/

/-- A plain wallet-funding UTxO. -/
def uW : UTxO := { input := { txHash := "hw", outputIndex := 0 },
                   output := { address := "w", amount := [("lovelace", 5000000)], plutusData := none } }

/-- A collateral UTxO. -/
def uC : UTxO := { input := { txHash := "hc", outputIndex := 0 },
                   output := { address := "w", amount := [("lovelace", 5000000)], plutusData := none } }

/-- Reference-token UTxO of asset `"a"` at the store address, datum owned by
public-key hash `"aa"`. -/
def uRefA : UTxO := { input := { txHash := "h1", outputIndex := 0 },
                      output := { address := "store", amount := [("P000643b061", 1)],
                                  plutusData := some [("name", "old"), ("_pk", "aa")] } }

/-- A wallet-held user-token UTxO of asset `"a"` with quantity 1. -/
def uUserA : UTxO := { input := { txHash := "h2", outputIndex := 0 },
                       output := { address := "w", amount := [("P000de14061", 1)], plutusData := none } }

/-- Base environment: policy id `"P"`, store address `"store"`, wallet at
`"w"` with public-key hash `"wpk"`, empty chain. -/
def baseEnv : Env :=
  { chain := [], walletUtxos := [uW], collaterals := [uC], walletAddress := "w",
    walletPkh := "wpk", policyId := "P", storeAddress := "store",
    mintScriptCbor := "MS", storeScriptCbor := "SS" }

/-- Environment where asset `"a"` is active (reference token with datum) and
the wallet holds one user token of it. -/
def envBurn : Env := { baseEnv with chain := [uRefA, uUserA] }

/-- Environment where asset `"a"` is active but owned by `"aa"`, not the
caller's `"wpk"`. -/
def envRefA : Env := { baseEnv with chain := [uRefA] }

/-- A wallet-held user-token UTxO of asset `"a"` with quantity 2. -/
def uUserA2 : UTxO := { input := { txHash := "h3", outputIndex := 0 },
                        output := { address := "w", amount := [("P000de14061", 2)], plutusData := none } }

/-- Environment where asset `"a"` is active and the wallet holds two user tokens. -/
def envBurn2 : Env := { baseEnv with chain := [uRefA, uUserA2] }

/-- Mint parameter for asset `"a"`. -/
def pA : MintParam := { assetName := "a", metadata := [("name", "x")], quantity := 1, receiver := "" }

/-- Mint parameter for the absent asset `"b"`. -/
def pB : MintParam := { assetName := "b", metadata := [], quantity := 1, receiver := "" }

/-- Mint parameter used by the coalescing witness: receiver `"r"`. -/
def pC7 : MintParam := { assetName := "a", metadata := [("k", "v")], quantity := 1, receiver := "r" }

/-- The action list `mint baseEnv [pC7] []` builds. -/
def actsC7 : List Action :=
  [Action.mintAct 1 "P" "000de14061" "MS" 0,
   Action.mintAct 1 "P" "000643b061" "MS" 0,
   Action.txOutAct "store" [("P000643b061", 1)] (some [("k", "v")]),
   Action.txOutAct "r" [("P000de14061", 1)] none,
   Action.changeAddress "w",
   Action.requiredSignerHash "wpk",
   Action.selectUtxosFrom [uW],
   Action.txInCollateral "hc" 0,
   Action.setNetwork]

/-- Burn parameter with positive quantity 1 (magnitude equals the held total of `envBurn`). -/
def pBurnPos : BurnParam := { assetName := "a", quantity := 1, txHash := none }

/-- Burn parameter with quantity -1 (full burn against `envBurn`). -/
def pBurnNeg : BurnParam := { assetName := "a", quantity := -1, txHash := none }

/-- Burn parameter with quantity -5 (magnitude exceeding any fixture's held total). -/
def pBurnBig : BurnParam := { assetName := "a", quantity := -5, txHash := none }

/-- Burn parameter for an asset with no reference token anywhere. -/
def pMissing : BurnParam := { assetName := "zz", quantity := -1, txHash := none }

/-- Update parameter replacing asset `"a"`'s metadata, without `_pk`. -/
def pUpd : UpdateParam := { assetName := "a", metadata := [("name", "new")], txHash := none }

/-- A complete batch item. -/
def okItem : BatchItem :=
  { asset_name := some "a", metadata := some [("name", "x")], receiver := some "r", quantity := none }

/-- A batch item missing its receiver. -/
def badItem : BatchItem :=
  { asset_name := some "a", metadata := some [("name", "x")], receiver := none, quantity := none }

/-! Helper lemmas about the embedding. -/

theorem getWalletForTx_eq_ok (env : Env) (c : UTxO) (cs : List UTxO)
    (h1 : env.walletUtxos ≠ []) (h2 : env.collaterals = c :: cs) (h3 : env.walletAddress ≠ "") :
    getWalletForTx env = .ok (env.walletUtxos, c, env.walletAddress) := by
  unfold getWalletForTx
  rw [h2]
  simp [h1, h3]

theorem getWalletForTx_ok_inv (env : Env) (t : List UTxO × UTxO × String)
    (h : getWalletForTx env = .ok t) :
    t.1 = env.walletUtxos ∧ t.2.2 = env.walletAddress := by
  unfold getWalletForTx at h
  split at h
  · cases h
  · split at h
    · cases h
    · split at h
      · cases h
      · cases h
        exact ⟨rfl, rfl⟩

theorem mintLoop_error_of_bad (env : Env) (wa pkh : String) :
    ∀ (ps : List MintParam) (m : RMap),
      (∃ p ∈ ps, storedPk env p.assetName ≠ some pkh) →
      ∃ e, mintLoop env wa pkh true ps m = .error e := by
  intro ps
  induction ps with
  | nil => intro m h; simp at h
  | cons p ps ih =>
    intro m h
    by_cases hp : storedPk env p.assetName = some pkh
    · obtain ⟨q, hq, hne⟩ := h
      have hq' : q ∈ ps := by
        cases hq with
        | head => exact absurd hp hne
        | tail _ htl => exact htl
      obtain ⟨e, he⟩ := ih (mintStep env wa m p) ⟨q, hq', hne⟩
      exact ⟨e, by simp [mintLoop, hp, he]⟩
    · exact ⟨p.assetName ++ " has been exist", by simp [mintLoop, hp]⟩

theorem mintLoop_ok_map (env : Env) (wa pkh : String) (flag : Bool) :
    ∀ (ps : List MintParam) (m m' : RMap) (acts : List Action),
      mintLoop env wa pkh flag ps m = .ok (m', acts) →
      m' = ps.foldl (mintStep env wa) m := by
  intro ps
  induction ps with
  | nil =>
    intro m m' acts h
    simp [mintLoop] at h
    simp [h.1]
  | cons p ps ih =>
    intro m m' acts h
    simp only [List.foldl_cons]
    cases flag with
    | true =>
      by_cases hp : storedPk env p.assetName = some pkh
      · simp only [mintLoop, if_true, hp, ne_eq, not_true_eq_false, if_false] at h
        cases hrec : mintLoop env wa pkh true ps (mintStep env wa m p) with
        | error e => rw [hrec] at h; cases h
        | ok pr =>
          obtain ⟨m2, rest⟩ := pr
          rw [hrec] at h
          cases h
          exact ih _ _ _ hrec
      · simp [mintLoop, hp] at h
    | false =>
      simp only [mintLoop, Bool.false_eq_true, if_false] at h
      cases hrec : mintLoop env wa pkh false ps (mintStep env wa m p) with
      | error e => rw [hrec] at h; cases h
      | ok pr =>
        obtain ⟨m2, rest⟩ := pr
        rw [hrec] at h
        cases h
        exact ih _ _ _ hrec

theorem rmapLookup_push (m : RMap) (k : String) (v : String × Int) (k' : String) :
    rmapLookup (rmapPush m k v) k' =
      if k' = k then rmapLookup m k' ++ [v] else rmapLookup m k' := by
  induction m with
  | nil =>
    by_cases h : k' = k
    · subst h; simp [rmapPush, rmapLookup]
    · simp [rmapPush, rmapLookup, h, Ne.symm h]
  | cons e rest ih =>
    obtain ⟨k0, vs⟩ := e
    by_cases h0 : k0 = k
    · subst h0
      by_cases h1 : k' = k0
      · subst h1; simp [rmapPush, rmapLookup]
      · simp [rmapPush, rmapLookup, h1, Ne.symm h1]
    · by_cases h1 : k' = k0
      · subst h1
        simp [rmapPush, rmapLookup, h0, Ne.symm h0]
      · simp [rmapPush, rmapLookup, h0, Ne.symm h1, ih]

theorem rmapPush_keys_mem (m : RMap) (k : String) (v : String × Int) (k' : String) :
    k' ∈ (rmapPush m k v).map Prod.fst ↔ k' ∈ m.map Prod.fst ∨ k' = k := by
  induction m with
  | nil => simp [rmapPush]
  | cons e rest ih =>
    obtain ⟨k0, vs⟩ := e
    by_cases h0 : k0 = k <;> simp [rmapPush, h0, ih] <;> tauto

theorem rmapPush_keys_nodup (m : RMap) (k : String) (v : String × Int)
    (h : (m.map Prod.fst).Nodup) : ((rmapPush m k v).map Prod.fst).Nodup := by
  induction m with
  | nil => simp [rmapPush]
  | cons e rest ih =>
    obtain ⟨k0, vs⟩ := e
    simp only [List.map_cons, List.nodup_cons] at h
    by_cases h0 : k0 = k
    · subst h0
      simp only [rmapPush, beq_self_eq_true, if_true, List.map_cons, List.nodup_cons]
      exact ⟨h.1, h.2⟩
    · have hbeq : (k0 == k) = false := by simp [h0]
      simp only [rmapPush, hbeq, Bool.false_eq_true, if_false, List.map_cons, List.nodup_cons]
      refine ⟨?_, ih h.2⟩
      rw [rmapPush_keys_mem]
      rintro (hmem | heq)
      · exact h.1 hmem
      · exact h0 heq

theorem foldl_mintStep_lookup (env : Env) (wa : String) :
    ∀ (params : List MintParam) (m : RMap) (k : String),
      rmapLookup (params.foldl (mintStep env wa) m) k =
        rmapLookup m k ++
          (params.filter (fun p => receiverKey wa p == k)).map
            (fun p => (unit222 env p.assetName, p.quantity)) := by
  intro params
  induction params with
  | nil => intro m k; simp
  | cons p ps ih =>
    intro m k
    simp only [List.foldl_cons]
    rw [ih]
    by_cases h : receiverKey wa p = k
    · simp [mintStep, rmapLookup_push, h, List.filter_cons]
    · simp [mintStep, rmapLookup_push, h, Ne.symm h, List.filter_cons]

theorem foldl_mintStep_keys_nodup (env : Env) (wa : String) :
    ∀ (params : List MintParam) (m : RMap),
      (m.map Prod.fst).Nodup →
      ((params.foldl (mintStep env wa) m).map Prod.fst).Nodup := by
  intro params
  induction params with
  | nil => intro m h; simpa using h
  | cons p ps ih => intro m h; exact ih _ (rmapPush_keys_nodup _ _ _ h)

theorem exceptFlatMapM_error_of_mem {α : Type} (f : α → Except String (List Action)) :
    ∀ (l : List α), (∃ x ∈ l, ∃ e, f x = .error e) →
      ∃ e, exceptFlatMapM f l = .error e := by
  intro l
  induction l with
  | nil => intro h; simp at h
  | cons x xs ih =>
    intro h
    cases hf : f x with
    | error e => exact ⟨e, by simp [exceptFlatMapM, hf]⟩
    | ok a =>
      obtain ⟨y, hy, e, he⟩ := h
      have hy' : y ∈ xs := by
        cases hy with
        | head => rw [hf] at he; cases he
        | tail _ htl => exact htl
      obtain ⟨e2, he2⟩ := ih ⟨y, hy', e, he⟩
      exact ⟨e2, by simp [exceptFlatMapM, hf, he2]⟩

theorem burnAsset_spec (env : Env) (wa : String) (p : BurnParam) (su : UTxO)
    (hstore : lookupStore env p.assetName p.txHash = .ok su) :
    burnAsset env wa p =
      .ok (if -p.quantity = heldAmount env wa p.assetName then
          [Action.mintAct p.quantity env.policyId (CIP68_222 (stringToHex p.assetName)) env.mintScriptCbor 1,
           Action.mintAct (-1) env.policyId (CIP68_100 (stringToHex p.assetName)) env.mintScriptCbor 1,
           Action.spendAct su.input.txHash su.input.outputIndex 1 env.storeScriptCbor]
        else
          [Action.mintAct p.quantity env.policyId (CIP68_222 (stringToHex p.assetName)) env.mintScriptCbor 1,
           Action.txOutAct wa [(unit222 env p.assetName, heldAmount env wa p.assetName + p.quantity)] none]) := by
  unfold burnAsset
  rw [hstore]
  by_cases h : -p.quantity = heldAmount env wa p.assetName <;> simp [h]

theorem burn_singleton (env : Env) (p : BurnParam) (c : UTxO) (cs : List UTxO) (acts : List Action)
    (h1 : env.walletUtxos ≠ []) (h2 : env.collaterals = c :: cs) (h3 : env.walletAddress ≠ "")
    (hb : burnAsset env env.walletAddress p = .ok acts) :
    burn env [p] = .ok (acts ++ finalizeSpend env env.walletAddress c env.walletUtxos) := by
  simp [burn, getWalletForTx_eq_ok env c cs h1 h2 h3, exceptFlatMapM, hb]

/-! Claim theorems. -/

/-- Claim C1: for a mint call whose assets all already have a reference token
(a datum-bearing store UTxO), if some asset's stored `_pk` differs from the
caller wallet's public-key hash, `mint` throws before any transaction is
emitted — the call's result is an error, so no mint action for that asset is
added and no transaction is built.  Contrapositively, only a caller whose
public-key hash equals every stored `_pk` can mint additional user tokens
against existing reference tokens. -/
theorem mint_existing_owner_mismatch_errors (env : Env) (params : List MintParam)
    (utxosInput : List UTxO)
    (hall : ∀ p ∈ params, hasPlutusData env p.assetName = true)
    (hbad : ∃ p ∈ params, storedPk env p.assetName ≠ some env.walletPkh) :
    ∃ e, mint env params utxosInput = .error e := by
  have hA : allExistB env params = true := by
    simp only [allExistB, List.all_eq_true]
    exact hall
  cases hgw : getWalletForTx env with
  | error e => exact ⟨e, by simp [mint, hgw]⟩
  | ok t =>
    obtain ⟨utxos, collateral, wa⟩ := t
    obtain ⟨e, he⟩ := mintLoop_error_of_bad env wa env.walletPkh params [] hbad
    exact ⟨e, by simp [mint, hgw, hA, he]⟩

/-- Witness for C1: in `envRefA` the reference token of `"a"` exists with
stored `_pk` `"aa"` while the caller's public-key hash is `"wpk"`; `mint`
errors. -/
theorem mint_existing_owner_mismatch_errors_witness :
    (∀ p ∈ [pA], hasPlutusData envRefA p.assetName = true) ∧
    (∃ p ∈ [pA], storedPk envRefA p.assetName ≠ some envRefA.walletPkh) ∧
    (∃ e, mint envRefA [pA] [] = .error e) :=
  ⟨by decide, by decide,
   mint_existing_owner_mismatch_errors envRefA [pA] [] (by decide) (by decide)⟩

/-- Claim C2: a mint call whose asset list mixes an already-existing asset
with an absent one fails — before any mint action, output or submission is
produced — with the error naming exactly the already-existing assets. -/
theorem mint_mixed_assets_error (env : Env) (params : List MintParam) (utxosInput : List UTxO)
    (c : UTxO) (cs : List UTxO)
    (h1 : env.walletUtxos ≠ []) (h2 : env.collaterals = c :: cs) (h3 : env.walletAddress ≠ "")
    (hex : ∃ p ∈ params, hasPlutusData env p.assetName = true)
    (hnew : ∃ p ∈ params, hasPlutusData env p.assetName = false) :
    mint env params utxosInput =
      .error ("Transaction only supports either minting new or existing assets.\nAssets already exist: "
        ++ String.intercalate ", "
          ((params.filter (fun p => hasPlutusData env p.assetName)).map (fun p => p.assetName))) := by
  have hA : allExistB env params = false := by
    obtain ⟨p, hp, hfalse⟩ := hnew
    cases hAb : allExistB env params with
    | false => rfl
    | true =>
      have := (List.all_eq_true.mp hAb) p hp
      rw [hfalse] at this
      cases this
  have hN : allNewB env params = false := by
    obtain ⟨p, hp, htrue⟩ := hex
    cases hNb : allNewB env params with
    | false => rfl
    | true =>
      have := (List.all_eq_true.mp hNb) p hp
      rw [htrue] at this
      cases this
  simp [mint, getWalletForTx_eq_ok env c cs h1 h2 h3, hA, hN]

/-- Witness for C2: in `envRefA`, asset `"a"` exists and `"b"` does not;
`mint` over both fails with the error naming `"a"`. -/
theorem mint_mixed_assets_error_witness :
    envRefA.walletUtxos ≠ [] ∧ envRefA.collaterals = uC :: [] ∧ envRefA.walletAddress ≠ "" ∧
    mint envRefA [pA, pB] [] =
      .error ("Transaction only supports either minting new or existing assets.\nAssets already exist: "
        ++ String.intercalate ", "
          (([pA, pB].filter (fun p => hasPlutusData envRefA p.assetName)).map (fun p => p.assetName))) :=
  ⟨by decide, by decide, by decide,
   mint_mixed_assets_error envRefA [pA, pB] [] uC [] (by decide) (by decide) (by decide)
     (by decide) (by decide)⟩

/-- Claim C9: the adapter constructor's derivation of store script code,
store address, mint script code and policy id is a pure deterministic
function of the SDK primitives, the compiled-contract descriptor and the
(course, issuer) parameters: two constructions with identical such inputs —
regardless of the wallet passed in or of the provider's chain state, which
the derivation never reads (no network call) — yield identical outputs. -/
theorem adapter_derivation_deterministic (sdk : SDK) (validators : List Validator)
    (storeTitle mintTitle course issuer : String)
    (wallet1 wallet2 : Option String) (chain1 chain2 : List UTxO) :
    adapterInit sdk validators storeTitle mintTitle wallet1 chain1 course issuer =
      adapterInit sdk validators storeTitle mintTitle wallet2 chain2 course issuer := rfl

/-- Claim C10: a burn call containing any asset whose reference-token store
UTxO cannot be located (by explicit transaction hash when given, else by asset
lookup at the store address) errors — even when the branch for that asset
would have been a partial burn — so no partial burn is possible for an asset
whose reference token is absent. -/
theorem burn_errors_when_store_utxo_missing (env : Env) (params : List BurnParam)
    (hbad : ∃ p ∈ params, ∃ e, lookupStore env p.assetName p.txHash = .error e) :
    ∃ e, burn env params = .error e := by
  cases hgw : getWalletForTx env with
  | error e => exact ⟨e, by simp [burn, hgw]⟩
  | ok t =>
    obtain ⟨utxos, collateral, wa⟩ := t
    have hb : ∃ p ∈ params, ∃ e, burnAsset env wa p = .error e := by
      obtain ⟨p, hp, e, he⟩ := hbad
      exact ⟨p, hp, e, by simp [burnAsset, he]⟩
    obtain ⟨e, he⟩ := exceptFlatMapM_error_of_mem (burnAsset env wa) params hb
    exact ⟨e, by simp [burn, hgw, he]⟩

/-- Witness for C10: in `baseEnv` no reference token of `"zz"` exists; a
partial-quantity burn of `"zz"` errors. -/
theorem burn_errors_when_store_utxo_missing_witness :
    (∃ p ∈ [pMissing], ∃ e, lookupStore baseEnv p.assetName p.txHash = .error e) ∧
    (∃ e, burn baseEnv [pMissing] = .error e) :=
  ⟨⟨pMissing, by decide, "Store UTXO not found", by decide⟩,
   burn_errors_when_store_utxo_missing baseEnv [pMissing]
     ⟨pMissing, by decide, "Store UTXO not found", by decide⟩⟩

/-- Counterexample to claim C3 as stated: in `envBurn` the caller holds
exactly 1 user token of `"a"`, and a burn with quantity 1 has magnitude equal
to that held total, yet the emitted transaction is the partial form — it
contains neither the spend of the reference-token UTxO (`h1`, 0) nor the
quantity -1 reference-token mint the claim requires of a full burn, because
the code's branch condition is `-quantity === amount`, not a magnitude
comparison. -/
theorem burn_magnitude_full_burn_cex :
    heldAmount envBurn envBurn.walletAddress "a" = 1 ∧
    (1 : Int).natAbs = (heldAmount envBurn envBurn.walletAddress "a").natAbs ∧
    burn envBurn [pBurnPos] =
      .ok ([Action.mintAct 1 "P" "000de14061" "MS" 1,
            Action.txOutAct "w" [("P000de14061", 2)] none]
        ++ finalizeSpend envBurn "w" uC [uW]) ∧
    Action.spendAct "h1" 0 1 "SS" ∉
      ([Action.mintAct 1 "P" "000de14061" "MS" 1,
        Action.txOutAct "w" [("P000de14061", 2)] none]
        ++ finalizeSpend envBurn "w" uC [uW]) ∧
    Action.mintAct (-1) "P" "000643b061" "MS" 1 ∉
      ([Action.mintAct 1 "P" "000de14061" "MS" 1,
        Action.txOutAct "w" [("P000de14061", 2)] none]
        ++ finalizeSpend envBurn "w" uC [uW]) :=
  ⟨by decide, by decide, by decide, by decide, by decide⟩

/-- Claim C3 (amended): letting H be the caller's total held user-token
quantity, a burn call on an asset with a locatable store UTxO emits the full
burn — the negative user-token mint, the quantity -1 reference-token mint and
the spend of the reference UTxO, all under redeemer constructor 1, distinct
from mint's constructor 0 — exactly when the negation of the requested
quantity equals H (quantity = -H); otherwise it emits only the user-token
mint plus an output carrying the held total plus the quantity back to the
wallet.  (The original claim keyed the full branch on the quantity's
magnitude; the code compares `-quantity` with the held total, which differs
for positive quantities.) -/
theorem burn_full_iff_negation (env : Env) (p : BurnParam) (c : UTxO) (cs : List UTxO) (su : UTxO)
    (h1 : env.walletUtxos ≠ []) (h2 : env.collaterals = c :: cs) (h3 : env.walletAddress ≠ "")
    (hstore : lookupStore env p.assetName p.txHash = .ok su) :
    burn env [p] =
      .ok ((if -p.quantity = heldAmount env env.walletAddress p.assetName then
          [Action.mintAct p.quantity env.policyId (CIP68_222 (stringToHex p.assetName)) env.mintScriptCbor 1,
           Action.mintAct (-1) env.policyId (CIP68_100 (stringToHex p.assetName)) env.mintScriptCbor 1,
           Action.spendAct su.input.txHash su.input.outputIndex 1 env.storeScriptCbor]
        else
          [Action.mintAct p.quantity env.policyId (CIP68_222 (stringToHex p.assetName)) env.mintScriptCbor 1,
           Action.txOutAct env.walletAddress
             [(unit222 env p.assetName, heldAmount env env.walletAddress p.assetName + p.quantity)] none])
        ++ finalizeSpend env env.walletAddress c env.walletUtxos) :=
  burn_singleton env p c cs _ h1 h2 h3 (burnAsset_spec env env.walletAddress p su hstore)

/-- Witness for the amended C3: in `envBurn` (held total 1) a burn of
quantity -1 takes the full branch. -/
theorem burn_full_iff_negation_witness :
    envBurn.walletUtxos ≠ [] ∧ envBurn.collaterals = uC :: [] ∧ envBurn.walletAddress ≠ "" ∧
    lookupStore envBurn "a" none = .ok uRefA ∧
    burn envBurn [pBurnNeg] =
      .ok ((if -(-1 : Int) = heldAmount envBurn envBurn.walletAddress "a" then
          [Action.mintAct (-1) envBurn.policyId (CIP68_222 (stringToHex "a")) envBurn.mintScriptCbor 1,
           Action.mintAct (-1) envBurn.policyId (CIP68_100 (stringToHex "a")) envBurn.mintScriptCbor 1,
           Action.spendAct uRefA.input.txHash uRefA.input.outputIndex 1 envBurn.storeScriptCbor]
        else
          [Action.mintAct (-1) envBurn.policyId (CIP68_222 (stringToHex "a")) envBurn.mintScriptCbor 1,
           Action.txOutAct envBurn.walletAddress
             [(unit222 envBurn "a", heldAmount envBurn envBurn.walletAddress "a" + (-1))] none])
        ++ finalizeSpend envBurn envBurn.walletAddress uC envBurn.walletUtxos) :=
  ⟨by decide, by decide, by decide, by decide,
   burn_full_iff_negation envBurn pBurnNeg uC [] uRefA (by decide) (by decide) (by decide) (by decide)⟩

/-- Claim C5: a partial burn — negative quantity whose magnitude is strictly
below the held total — leaves the reference token and its datum untouched:
the emitted actions are exactly the negative user-token mint and the wallet
output carrying the reduced balance (no spend of the store UTxO, no
reference-token mint appears in them), and the user-token balance strictly
decreases by exactly the burned amount. -/
theorem burn_partial_preserves_reference (env : Env) (p : BurnParam) (c : UTxO) (cs : List UTxO)
    (su : UTxO)
    (h1 : env.walletUtxos ≠ []) (h2 : env.collaterals = c :: cs) (h3 : env.walletAddress ≠ "")
    (hstore : lookupStore env p.assetName p.txHash = .ok su)
    (hneg : p.quantity < 0)
    (hlt : -p.quantity < heldAmount env env.walletAddress p.assetName) :
    burn env [p] =
      .ok ([Action.mintAct p.quantity env.policyId (CIP68_222 (stringToHex p.assetName)) env.mintScriptCbor 1,
            Action.txOutAct env.walletAddress
              [(unit222 env p.assetName, heldAmount env env.walletAddress p.assetName + p.quantity)] none]
        ++ finalizeSpend env env.walletAddress c env.walletUtxos) ∧
    heldAmount env env.walletAddress p.assetName + p.quantity <
      heldAmount env env.walletAddress p.assetName := by
  have hne : ¬(-p.quantity = heldAmount env env.walletAddress p.assetName) := by omega
  refine ⟨?_, by omega⟩
  have hb := burnAsset_spec env env.walletAddress p su hstore
  rw [if_neg hne] at hb
  exact burn_singleton env p c cs _ h1 h2 h3 hb

/-- Witness for C5: in `envBurn2` (held total 2) a burn of quantity -1 emits
only the user-token mint and the balance-1 wallet output. -/
theorem burn_partial_preserves_reference_witness :
    envBurn2.walletUtxos ≠ [] ∧ envBurn2.collaterals = uC :: [] ∧ envBurn2.walletAddress ≠ "" ∧
    lookupStore envBurn2 "a" none = .ok uRefA ∧
    (-1 : Int) < 0 ∧ -(-1 : Int) < heldAmount envBurn2 envBurn2.walletAddress "a" ∧
    (burn envBurn2 [pBurnNeg] =
      .ok ([Action.mintAct (-1) envBurn2.policyId (CIP68_222 (stringToHex "a")) envBurn2.mintScriptCbor 1,
            Action.txOutAct envBurn2.walletAddress
              [(unit222 envBurn2 "a", heldAmount envBurn2 envBurn2.walletAddress "a" + (-1))] none]
        ++ finalizeSpend envBurn2 envBurn2.walletAddress uC envBurn2.walletUtxos) ∧
     heldAmount envBurn2 envBurn2.walletAddress "a" + (-1) <
       heldAmount envBurn2 envBurn2.walletAddress "a") :=
  ⟨by decide, by decide, by decide, by decide, by decide, by decide,
   burn_partial_preserves_reference envBurn2 pBurnNeg uC [] uRefA
     (by decide) (by decide) (by decide) (by decide) (by decide) (by decide)⟩

/-- Claim C8: held-quantity and remaining-balance arithmetic is exact integer
arithmetic (`heldAmount` and the output quantity are integers), and the only
validation applied to the burn quantity is the single equality check driving
the full-vs-partial branch: for any quantity whose negation does not equal
the held total — including a positive quantity or a magnitude exceeding the
held balance — the partial branch runs and the wallet output carries the held
total plus the (possibly negative) quantity, with no guard against a negative
result. -/
theorem burn_partial_unguarded_arithmetic (env : Env) (p : BurnParam) (c : UTxO) (cs : List UTxO)
    (su : UTxO)
    (h1 : env.walletUtxos ≠ []) (h2 : env.collaterals = c :: cs) (h3 : env.walletAddress ≠ "")
    (hstore : lookupStore env p.assetName p.txHash = .ok su)
    (hne : -p.quantity ≠ heldAmount env env.walletAddress p.assetName) :
    burn env [p] =
      .ok ([Action.mintAct p.quantity env.policyId (CIP68_222 (stringToHex p.assetName)) env.mintScriptCbor 1,
            Action.txOutAct env.walletAddress
              [(unit222 env p.assetName, heldAmount env env.walletAddress p.assetName + p.quantity)] none]
        ++ finalizeSpend env env.walletAddress c env.walletUtxos) := by
  have hb := burnAsset_spec env env.walletAddress p su hstore
  rw [if_neg hne] at hb
  exact burn_singleton env p c cs _ h1 h2 h3 hb

theorem update_singleton (env : Env) (p : UpdateParam) (c : UTxO) (cs : List UTxO)
    (acts : List Action)
    (h1 : env.walletUtxos ≠ []) (h2 : env.collaterals = c :: cs) (h3 : env.walletAddress ≠ "")
    (hu : updateAsset env p = .ok acts) :
    update env [p] = .ok (acts ++ finalizeSpend env env.walletAddress c env.walletUtxos) := by
  simp [update, getWalletForTx_eq_ok env c cs h1 h2 h3, exceptFlatMapM, hu]

/-- Counterexample to claim C4 as stated: in `envRefA` the reference datum of
`"a"` stores `_pk = "aa"`, and an update supplying the metadata
`[("name", "new")]` re-creates the store output with inline datum exactly
`[("name", "new")]`: decoding it yields no `_pk` at all, so the new datum is
not the supplied metadata plus the original `_pk` — the code performs a full
replacement with `metadataToCip68(metadata)` and never carries `_pk` over. -/
theorem update_drops_original_pk_cex :
    storedPk envRefA "a" = some "aa" ∧
    update envRefA [pUpd] =
      .ok ([Action.spendAct "h1" 0 0 "SS",
            Action.txOutAct "store" [("P000643b061", 1)] (some [("name", "new")])]
        ++ finalizeSpend envRefA "w" uC [uW]) ∧
    getPkHash (convertDatum [("name", "new")] true) = none :=
  ⟨by decide, by decide, by decide⟩

/-- Claim C4 (amended): an update on an asset with a locatable reference-token
UTxO spends that UTxO (store script, redeemer constructor 0) and re-creates it
at the same store address with reference-token quantity exactly 1 and an
inline datum that wholly replaces the old one: decoding the new datum yields
exactly the supplied metadata, with no residual old keys — in particular the
original `_pk` is carried over only if the supplied metadata itself contains
it.  (The original claim asserted the decoded datum is the supplied metadata
plus the original `_pk`; the code does not preserve `_pk`.) -/
theorem update_full_datum_replacement (env : Env) (p : UpdateParam) (c : UTxO) (cs : List UTxO)
    (su : UTxO)
    (h1 : env.walletUtxos ≠ []) (h2 : env.collaterals = c :: cs) (h3 : env.walletAddress ≠ "")
    (hstore : lookupStore env p.assetName p.txHash = .ok su) :
    update env [p] =
      .ok ([Action.spendAct su.input.txHash su.input.outputIndex 0 env.storeScriptCbor,
            Action.txOutAct env.storeAddress [(unit100 env p.assetName, 1)]
              (some (metadataToCip68 p.metadata))]
        ++ finalizeSpend env env.walletAddress c env.walletUtxos) ∧
    convertDatum (metadataToCip68 p.metadata) true = p.metadata := by
  refine ⟨?_, rfl⟩
  exact update_singleton env p c cs _ h1 h2 h3 (by simp [updateAsset, hstore])

/-- Witness for the amended C4 at `envRefA` and the metadata `[("name", "new")]`. -/
theorem update_full_datum_replacement_witness :
    envRefA.walletUtxos ≠ [] ∧ envRefA.collaterals = uC :: [] ∧ envRefA.walletAddress ≠ "" ∧
    lookupStore envRefA "a" none = .ok uRefA ∧
    (update envRefA [pUpd] =
      .ok ([Action.spendAct uRefA.input.txHash uRefA.input.outputIndex 0 envRefA.storeScriptCbor,
            Action.txOutAct envRefA.storeAddress [(unit100 envRefA "a", 1)]
              (some (metadataToCip68 [("name", "new")]))]
        ++ finalizeSpend envRefA envRefA.walletAddress uC envRefA.walletUtxos) ∧
     convertDatum (metadataToCip68 [("name", "new")]) true = [("name", "new")]) :=
  ⟨by decide, by decide, by decide, by decide,
   update_full_datum_replacement envRefA pUpd uC [] uRefA
     (by decide) (by decide) (by decide) (by decide)⟩

/-- Claim C6: the batch-mint handler's validation — which runs before the
provider, wallet, or builder is constructed, so before any chain interaction —
returns a 400 rejection whenever the items list is empty, longer than 15, or
contains an item missing `asset_name`, `metadata`, or `receiver`; and a
request with a present course and 1 to 15 complete items passes it. -/
theorem batch_mint_request_validation (course : Option String) (items : List BatchItem) :
    ((items = [] ∨ 15 < items.length ∨ ∃ it ∈ items, itemIncomplete it = true) →
      ∃ msg, batchMintValidate course (some items) = .reject 400 msg) ∧
    (strFalsy course = false → items ≠ [] → items.length ≤ 15 →
      (∀ it ∈ items, itemIncomplete it = false) →
      ∃ ps, batchMintValidate course (some items) = .proceed ps) := by
  constructor
  · intro h
    show ∃ msg, batchMintValidateItems course items = .reject 400 msg
    unfold batchMintValidateItems
    by_cases hc : (strFalsy course || items.isEmpty) = true
    · exact ⟨"Missing required fields: course, items (array)", by rw [if_pos hc]⟩
    · rw [if_neg hc]
      by_cases hlen : 15 < items.length
      · exact ⟨"Maximum 15 items per batch (Cardano tx size limit)", by rw [if_pos hlen]⟩
      · rw [if_neg hlen]
        have hne : items ≠ [] := fun hnil => hc (by simp [hnil])
        have hinc : ∃ it ∈ items, itemIncomplete it = true := by
          rcases h with h | h | h
          · exact absurd h hne
          · exact absurd h hlen
          · exact h
        obtain ⟨it, hit, hit2⟩ := hinc
        cases hf : items.find? itemIncomplete with
        | some x =>
          exact ⟨"Each item must have: asset_name, metadata, receiver", rfl⟩
        | none =>
          have := List.find?_eq_none.mp hf it hit
          rw [hit2] at this
          exact absurd rfl this
  · intro hc hne hlen hall
    show ∃ ps, batchMintValidateItems course items = .proceed ps
    unfold batchMintValidateItems
    have h1 : ¬((strFalsy course || items.isEmpty) = true) := by simp [hc, hne]
    rw [if_neg h1, if_neg (by omega : ¬15 < items.length)]
    cases hf : items.find? itemIncomplete with
    | some x =>
      have hx := List.mem_of_find?_eq_some hf
      have hpx := List.find?_some hf
      rw [hall x hx] at hpx
      cases hpx
    | none => exact ⟨_, rfl⟩

/-- Witness for C6: a 16-item batch is rejected, a batch with an item missing
its receiver is rejected, and a one-complete-item batch passes. -/
theorem batch_mint_request_validation_witness :
    (∃ msg, batchMintValidate (some "c") (some (List.replicate 16 okItem)) = .reject 400 msg) ∧
    (∃ msg, batchMintValidate (some "c") (some [badItem]) = .reject 400 msg) ∧
    (∃ ps, batchMintValidate (some "c") (some [okItem]) = .proceed ps) :=
  ⟨(batch_mint_request_validation (some "c") (List.replicate 16 okItem)).1
     (Or.inr (Or.inl (by decide))),
   (batch_mint_request_validation (some "c") [badItem]).1
     (Or.inr (Or.inr ⟨badItem, by decide, by decide⟩)),
   (batch_mint_request_validation (some "c") [okItem]).2
     (by decide) (by decide) (by decide) (by decide)⟩

/-- Claim C7: whenever a mint call succeeds, its emitted output section
coalesces the user-token outputs by receiver address (the wallet address
standing in for an empty receiver): the built action list ends with exactly
one `txOutAct` per distinct receiver key — the receiver-map keys are without
duplicates — and the entry for each key carries every user-token unit and
quantity requested for that receiver, in request order, followed by the
finalization chain. -/
theorem mint_coalesces_receiver_outputs (env : Env) (params : List MintParam)
    (utxosInput : List UTxO) (acts : List Action)
    (hok : mint env params utxosInput = .ok acts) :
    ∃ pre collateral,
      acts = pre ++ (mintReceiverMap env params).map (fun e => Action.txOutAct e.1 e.2 none)
        ++ finalizeMint env env.walletAddress collateral env.walletUtxos ∧
      ((mintReceiverMap env params).map Prod.fst).Nodup ∧
      ∀ k, rmapLookup (mintReceiverMap env params) k =
        (params.filter (fun p => receiverKey env.walletAddress p == k)).map
          (fun p => (unit222 env p.assetName, p.quantity)) := by
  cases hgw : getWalletForTx env with
  | error e => simp [mint, hgw] at hok
  | ok t =>
    obtain ⟨utxos, collateral, wa⟩ := t
    obtain ⟨hu, hwa⟩ := getWalletForTx_ok_inv env (utxos, collateral, wa) hgw
    have hu' : utxos = env.walletUtxos := hu
    have hwa' : wa = env.walletAddress := hwa
    subst hwa'
    simp only [mint, hgw] at hok
    by_cases hmix : (!allExistB env params && !allNewB env params) = true
    · rw [if_pos hmix] at hok; cases hok
    · rw [if_neg hmix] at hok
      cases hml : mintLoop env env.walletAddress env.walletPkh (allExistB env params) params [] with
      | error e => rw [hml] at hok; cases hok
      | ok pr =>
        obtain ⟨m, loopActs⟩ := pr
        rw [hml] at hok
        injection hok with hok
        subst hok
        have hm : m = params.foldl (mintStep env env.walletAddress) [] :=
          mintLoop_ok_map env env.walletAddress env.walletPkh _ params [] m loopActs hml
        refine ⟨utxosInput.map (fun u => Action.txIn u.input.txHash u.input.outputIndex) ++ loopActs,
          collateral, ?_, ?_, ?_⟩
        · rw [hu', hm]
          simp [mintReceiverMap, List.append_assoc]
        · exact foldl_mintStep_keys_nodup env env.walletAddress params [] (by simp)
        · intro k
          have hl := foldl_mintStep_lookup env env.walletAddress params [] k
          simpa [mintReceiverMap, rmapLookup] using hl

/-- Witness for C7: a successful single-asset new mint in `baseEnv`. -/
theorem mint_coalesces_receiver_outputs_witness :
    mint baseEnv [pC7] [] = .ok actsC7 ∧
    (∃ pre collateral,
      actsC7 = pre ++ (mintReceiverMap baseEnv [pC7]).map (fun e => Action.txOutAct e.1 e.2 none)
        ++ finalizeMint baseEnv baseEnv.walletAddress collateral baseEnv.walletUtxos ∧
      ((mintReceiverMap baseEnv [pC7]).map Prod.fst).Nodup ∧
      ∀ k, rmapLookup (mintReceiverMap baseEnv [pC7]) k =
        ([pC7].filter (fun p => receiverKey baseEnv.walletAddress p == k)).map
          (fun p => (unit222 baseEnv p.assetName, p.quantity))) :=
  ⟨by decide, mint_coalesces_receiver_outputs baseEnv [pC7] [] actsC7 (by decide)⟩

/-- Witness for C8: in `envBurn` (held total 1) a burn of quantity -5 takes
the partial branch and the wallet output quantity is the negative value -4 —
no guard rejects it. -/
theorem burn_partial_unguarded_arithmetic_witness :
    envBurn.walletUtxos ≠ [] ∧ envBurn.collaterals = uC :: [] ∧ envBurn.walletAddress ≠ "" ∧
    lookupStore envBurn "a" none = .ok uRefA ∧
    -(-5 : Int) ≠ heldAmount envBurn envBurn.walletAddress "a" ∧
    heldAmount envBurn envBurn.walletAddress "a" + (-5) = -4 ∧
    burn envBurn [pBurnBig] =
      .ok ([Action.mintAct (-5) envBurn.policyId (CIP68_222 (stringToHex "a")) envBurn.mintScriptCbor 1,
            Action.txOutAct envBurn.walletAddress
              [(unit222 envBurn "a", heldAmount envBurn envBurn.walletAddress "a" + (-5))] none]
        ++ finalizeSpend envBurn envBurn.walletAddress uC envBurn.walletUtxos) :=
  ⟨by decide, by decide, by decide, by decide, by decide, by decide,
   burn_partial_unguarded_arithmetic envBurn pBurnBig uC [] uRefA
     (by decide) (by decide) (by decide) (by decide) (by decide)⟩

end LMS
